import Mathlib

/-
  Verification development for btel/cargo-semver-hook (src/main.rs).

  The program is shallowly embedded: pure Rust functions become Lean
  functions over `Nat`/`String`/`List Char`; the git repository is an
  explicit `RepoState` record carrying the values that the program's
  read-only VCS queries would return; fallible code returns `Except`.
  Machine integers are modeled as `Nat` with explicit range checks where
  the source checks them (`str::parse::<i32>` and the semver crate's u64
  bound); decimal formatting is modeled by an executable digit renderer.
-/

namespace CargoSemverHook

/-! ### Character classes (ASCII, as used by the semver crate) -/

/-- ASCII digit test, as in Rust's `u8::is_ascii_digit`. -/
def isDigitChar (c : Char) : Bool :=
  48 ≤ c.toNat && c.toNat ≤ 57

/-- ASCII alphanumeric test. -/
def isAlphaNumChar (c : Char) : Bool :=
  isDigitChar c || (65 ≤ c.toNat && c.toNat ≤ 90) || (97 ≤ c.toNat && c.toNat ≤ 122)

/-- Characters permitted inside a semver pre-release / build identifier:
ASCII alphanumerics and the hyphen. -/
def isIdentChar (c : Char) : Bool :=
  isAlphaNumChar c || c.toNat = 45

/-! ### Decimal digit strings -/

/-- Numeric value of a digit string (most significant digit first). -/
def digitsToNat (cs : List Char) : Nat :=
  cs.foldl (fun acc c => acc * 10 + (c.toNat - 48)) 0

/-- The ASCII character for a single decimal digit. -/
def digitChar (k : Nat) : Char :=
  if k = 0 then '0' else if k = 1 then '1' else if k = 2 then '2'
  else if k = 3 then '3' else if k = 4 then '4' else if k = 5 then '5'
  else if k = 6 then '6' else if k = 7 then '7' else if k = 8 then '8' else '9'

/-- Fuel-based decimal rendering; `fuel > n` suffices. -/
def natDigitsAux : Nat → Nat → List Char → List Char
  | 0, _, acc => acc
  | fuel + 1, n, acc =>
    if n < 10 then digitChar (n % 10) :: acc
    else natDigitsAux fuel (n / 10) (digitChar (n % 10) :: acc)

/-- Decimal digits of `n`, most significant first (`natDigits 0 = ['0']`). -/
def natDigits (n : Nat) : List Char :=
  natDigitsAux (n + 1) n []

/-- Decimal rendering of a natural number, as Rust's integer `Display`. -/
def natRepr (n : Nat) : String :=
  String.mk (natDigits n)

/-! ### Splitting, as Rust's `str::split(char)` -/

/-- Split a character list at every occurrence of `sep`.  Mirrors Rust's
`str::split`: the empty input yields one empty part, a leading/trailing
separator yields an empty part at that end. -/
def splitOnChar (sep : Char) : List Char → List (List Char)
  | [] => [[]]
  | c :: cs =>
    match splitOnChar sep cs with
    | [] => [[c]]
    | p :: ps => if c = sep then [] :: p :: ps else (c :: p) :: ps

/-! ### The semver crate's `Version` -/

/-- A parsed semantic version, as the semver crate's `Version`: the
pre-release and build metadata are kept as their raw strings. -/
structure Version where
  major : Nat
  minor : Nat
  patch : Nat
  pre : String
  build : String
deriving DecidableEq, Repr

/-- Byte-wise lexicographic comparison of two character lists, as the
semver crate's `Ordering::cmp` on byte slices of ASCII identifiers. -/
def cmpChars : List Char → List Char → Ordering
  | [], [] => .eq
  | [], _ :: _ => .lt
  | _ :: _, [] => .gt
  | a :: as_, b :: bs => (compare a.toNat b.toNat).then (cmpChars as_ bs)

/-- Comparison of two pre-release identifiers, as in the semver crate:
numeric identifiers compare numerically (length, then bytes — valid since
numeric identifiers carry no leading zeros), numeric sorts below
alphanumeric, alphanumeric compares byte-wise. -/
def cmpIdentPre (a b : List Char) : Ordering :=
  match a.all isDigitChar, b.all isDigitChar with
  | true, true => (compare a.length b.length).then (cmpChars a b)
  | true, false => .lt
  | false, true => .gt
  | false, false => cmpChars a b

/-- Dot-separated identifier lists compared left to right; a strict prefix
sorts below the longer list. -/
def cmpIdentListPre : List (List Char) → List (List Char) → Ordering
  | [], [] => .eq
  | [], _ :: _ => .lt
  | _ :: _, [] => .gt
  | x :: xs, y :: ys => (cmpIdentPre x y).then (cmpIdentListPre xs ys)

/-- The semver crate's `Ord` on `Prerelease`: an empty pre-release (a real
release) sorts above any non-empty one; otherwise identifiers compare
component-wise. -/
def cmpPre (a b : String) : Ordering :=
  if a = "" then (if b = "" then .eq else .gt)
  else if b = "" then .lt
  else cmpIdentListPre (splitOnChar '.' a.data) (splitOnChar '.' b.data)

/-- Comparison of two build-metadata identifiers, as in the semver crate:
digit-only identifiers compare by value and then by raw length (leading
zeros allowed in build metadata), digit-only sorts below alphanumeric. -/
def cmpIdentBuild (a b : List Char) : Ordering :=
  match a.all isDigitChar, b.all isDigitChar with
  | true, true =>
    let a' := a.dropWhile (fun c => c = '0')
    let b' := b.dropWhile (fun c => c = '0')
    ((compare a'.length b'.length).then (cmpChars a' b')).then (compare a.length b.length)
  | true, false => .lt
  | false, true => .gt
  | false, false => cmpChars a b

/-- Dot-separated build identifier lists compared left to right. -/
def cmpIdentListBuild : List (List Char) → List (List Char) → Ordering
  | [], [] => .eq
  | [], _ :: _ => .lt
  | _ :: _, [] => .gt
  | x :: xs, y :: ys => (cmpIdentBuild x y).then (cmpIdentListBuild xs ys)

/-- The semver crate's `Ord` on `BuildMetadata` (empty build metadata is
the single empty identifier, which sorts below everything else). -/
def cmpBuild (a b : String) : Ordering :=
  cmpIdentListBuild (splitOnChar '.' a.data) (splitOnChar '.' b.data)

/-- The semver crate's `Ord` on `Version`: major, minor, patch,
pre-release, and finally build metadata as a total-order tiebreaker. -/
def Version.cmp (a b : Version) : Ordering :=
  (compare a.major b.major).then
    ((compare a.minor b.minor).then
      ((compare a.patch b.patch).then
        ((cmpPre a.pre b.pre).then (cmpBuild a.build b.build))))

/-- Strict `<` on versions, as the semver crate's derived `PartialOrd`. -/
def Version.blt (a b : Version) : Bool :=
  match Version.cmp a b with
  | .lt => true
  | _ => false

/-! ### The semver crate's `Version::parse` -/

/-- One semver pre-release identifier is valid when it is non-empty, made
of identifier characters, and — when fully numeric — carries no leading
zero (unless it is the single digit identifier). -/
def validPreIdent (i : List Char) : Bool :=
  !i.isEmpty && i.all isIdentChar &&
    !(i.all isDigitChar && decide (1 < i.length) && i.head? == some '0')

/-- Validity of a (non-empty) pre-release string: every dot-separated
identifier is valid. -/
def validPrerelease (cs : List Char) : Bool :=
  (splitOnChar '.' cs).all validPreIdent

/-- One build-metadata identifier: non-empty identifier characters
(leading zeros are allowed in build metadata). -/
def validBuildIdent (i : List Char) : Bool :=
  !i.isEmpty && i.all isIdentChar

/-- Validity of a (non-empty) build-metadata string. -/
def validBuild (cs : List Char) : Bool :=
  (splitOnChar '.' cs).all validBuildIdent

/-- What `Prerelease::new` accepts: the empty string, or a string of valid
dot-separated identifiers. -/
def prereleaseNewOk (cs : List Char) : Bool :=
  cs.isEmpty || validPrerelease cs

/-- Parse one numeric component (major/minor/patch) as the semver crate
does: one or more digits, no leading zero, value bounded by u64. -/
def parseVersionNum (cs : List Char) : Except String (Nat × List Char) :=
  let p := cs.span isDigitChar
  if p.1.isEmpty then .error "unexpected character while parsing number"
  else if p.1.head? == some '0' && decide (1 < p.1.length) then .error "invalid leading zero"
  else if decide (18446744073709551615 < digitsToNat p.1) then .error "value does not fit u64"
  else .ok (digitsToNat p.1, p.2)

/-- Parse the optional `-<prerelease>` section (everything up to `+` or
the end of input); an invalid or empty pre-release is an error. -/
def parsePrePart : List Char → Except String (String × List Char)
  | '-' :: rest =>
    let p := rest.span (fun c => c ≠ '+')
    if validPrerelease p.1 then .ok (String.mk p.1, p.2) else .error "invalid prerelease"
  | cs => .ok ("", cs)

/-- Parse the optional `+<build>` tail; trailing junk that is neither a
build section nor the end of input is an error. -/
def parseBuildPart : List Char → Except String String
  | [] => .ok ""
  | '+' :: rest => if validBuild rest then .ok (String.mk rest) else .error "invalid build metadata"
  | _ => .error "unexpected character"

/-- The semver crate's `Version::parse`: `major.minor.patch` with optional
`-prerelease` and `+build`, consuming the whole string. -/
def parseSemverVersion (s : String) : Except String Version :=
  match parseVersionNum s.data with
  | .error e => .error e
  | .ok (major, r1) =>
    match r1 with
    | '.' :: r2 =>
      match parseVersionNum r2 with
      | .error e => .error e
      | .ok (minor, r3) =>
        match r3 with
        | '.' :: r4 =>
          match parseVersionNum r4 with
          | .error e => .error e
          | .ok (patch, r5) =>
            match parsePrePart r5 with
            | .error e => .error e
            | .ok (pre, r6) =>
              match parseBuildPart r6 with
              | .error e => .error e
              | .ok build => .ok ⟨major, minor, patch, pre, build⟩
        | _ => .error "expected dot"
    | _ => .error "expected dot"

/-- The semver crate's `Display` for `Version`, used by the program when
it writes the new version back into the manifest. -/
def renderVersion (v : Version) : String :=
  natRepr v.major ++ "." ++ natRepr v.minor ++ "." ++ natRepr v.patch
    ++ (if v.pre = "" then "" else "-" ++ v.pre)
    ++ (if v.build = "" then "" else "+" ++ v.build)

/-! ### The manifest version line (`replace_version` / `parse_cargo_version`)

Both functions in `main.rs` use the multi-line regular expressions
`^version = ".+"` (for replacement) and `^version = "(.+)"` (for capture).
A line matches when it starts with the 11 characters `version = "` and the
remainder holds a closing quote preceded by at least one character; the
greedy `.+` extends the match to the last quote on the line. -/

/-- Index of the last occurrence of `c` in `cs`, if any. -/
def lastIdxOf (c : Char) (cs : List Char) : Option Nat :=
  match cs.reverse.findIdx? (fun x => x == c) with
  | some j => some (cs.length - 1 - j)
  | none => none

/-- The literal line head matched by the regex. -/
def versionLineHead : List Char :=
  ['v', 'e', 'r', 's', 'i', 'o', 'n', ' ', '=', ' ', '"']

/-- The capture of `^version = "(.+)"` on one line, if the line matches. -/
def versionLineCapture (line : List Char) : Option (List Char) :=
  if versionLineHead.isPrefixOf line then
    let rest := line.drop 11
    match lastIdxOf '"' rest with
    | some i => if 1 ≤ i then some (rest.take i) else none
    | none => none
  else none

/-- Length of the full regex match on one line, if the line matches. -/
def versionLineMatchLen (line : List Char) : Option Nat :=
  match versionLineCapture line with
  | some cap => some (11 + cap.length + 1)
  | none => none

/-- The replacement text `version = "<ver>"` followed by whatever part of
the line the greedy match did not cover. -/
def replLine (ver : List Char) (line : List Char) (n : Nat) : List Char :=
  versionLineHead ++ ver ++ '"' :: line.drop n

/-- Replace the first matching line's matched span, leaving every other
line untouched (regex `Regex::replace` substitutes the first match only;
the replacement string the program builds never holds a `$`). -/
def replaceFirstVersionLine (ver : List Char) : List (List Char) → List (List Char)
  | [] => []
  | l :: ls =>
    match versionLineMatchLen l with
    | some n => replLine ver l n :: ls
    | none => l :: replaceFirstVersionLine ver ls

/-- `replace_version` from `main.rs`, acting on the manifest's text (the
surrounding file read/write is carried by `RepoState`). -/
def replace_version (contents : String) (ver : String) : String :=
  String.mk (List.intercalate ['\n']
    (replaceFirstVersionLine ver.data (splitOnChar '\n' contents.data)))

/-- First capture of the version regex over all lines of the manifest. -/
def firstVersionCapture : List (List Char) → Option (List Char)
  | [] => none
  | l :: ls =>
    match versionLineCapture l with
    | some cap => some cap
    | none => firstVersionCapture ls

/-- `parse_cargo_version` from `main.rs`: first regex capture, then
`Version::parse`. -/
def parse_cargo_version (contents : String) : Except String Version :=
  match firstVersionCapture (splitOnChar '\n' contents.data) with
  | none => .error "version number not found"
  | some cap =>
    match parseSemverVersion (String.mk cap) with
    | .ok v => .ok v
    | .error _ => .error ("error parsing version from Cargo.toml " ++ String.mk cap)

/-- `get_cargo_version` from `main.rs`, given the manifest text that the
repository query returns for the index (stage 0) copy of `Cargo.toml`. -/
def get_cargo_version (indexManifest : String) : Except String Version :=
  parse_cargo_version indexManifest

/-- Strip one leading `v`, as `strip_prefix` in `get_latest_tag`. -/
def stripV (s : String) : String :=
  match s.data with
  | 'v' :: r => String.mk r
  | _ => s

/-- `get_latest_tag` from `main.rs`, given the string the `describe`
query returns (the query itself is an external collaborator). -/
def get_latest_tag (versionStr : String) : Except String Version :=
  match parseSemverVersion (stripV versionStr) with
  | .ok v => .ok v
  | .error _ => .error ("error parsing version from git tag " ++ versionStr)

/-! ### Labeling modes and errors -/

/-- The CLI's `--mode` argument (`VersioningKindArg` in `main.rs`). -/
inductive VersioningKindArg
  | pep440
  | semver
  | semverCommit
deriving DecidableEq, Repr

/-- The internal labeling mode (`VersioningKind` in `main.rs`); the
commit-suffixed mode carries the abbreviated HEAD id. -/
inductive VersioningKind
  | pep440
  | semver
  | semverCommit (baseCommit : String)
deriving DecidableEq, Repr

/-- The failure cases of the bump path.  `anyhow` erases error types in
the source; the constructors record which failure site produced the
error (`outdated` is `VersionHookError::Outdated`). -/
inductive BumpError
  | other (msg : String)
  | malformedCount (tag : String)
  | wrongTagFormat
  | invalidPrerelease (s : String)
  | outdated (cargoVer repoVer : Version)
deriving DecidableEq, Repr

/-- The closure `mk_prerelease_str` inside `make_dev_prerelease`. -/
def mk_prerelease_str (nCommits : Nat) (mode : VersioningKind) : String :=
  match mode with
  | .pep440 => "dev" ++ natRepr nCommits
  | .semver => "dev." ++ natRepr nCommits
  | .semverCommit baseCommit => "dev." ++ natRepr nCommits ++ ".g" ++ baseCommit

/-- Drop the optional leading sign accepted by Rust's integer parser.
Parts come from a split on `-`, so a minus sign never occurs here. -/
def stripPlus : List Char → List Char
  | '+' :: rest => rest
  | cs => cs

/-- Rust's `str::parse::<i32>` on a pre-release part: optional `+`, then
one or more digits; the i32 upper bound models its overflow failure (the
parsed count is never negative, since no minus sign can occur). -/
def parseCount (cs : List Char) : Option Nat :=
  let digits := stripPlus cs
  if !digits.isEmpty && digits.all isDigitChar && decide (digitsToNat digits ≤ 2147483647)
  then some (digitsToNat digits) else none

/-- `make_dev_prerelease` from `main.rs`.  An empty tag pre-release gives
the first dev iteration (count 1) regardless of the dirty flag; a
two-part `<count>-<commit>` pre-release gives count + 1 when dirty and
count otherwise; any other shape fails.  The final `Prerelease::new`
validation is modeled by `prereleaseNewOk` (in the source the empty-case
constructor is `unwrap`ped, which aborts on an invalid mode string; both
abort paths are modeled as `invalidPrerelease`). -/
def make_dev_prerelease (pre : String) (mode : VersioningKind) (isDirty : Bool) :
    Except BumpError String :=
  if pre = "" then
    let s := mk_prerelease_str 1 mode
    if prereleaseNewOk s.data then .ok s else .error (.invalidPrerelease s)
  else
    match splitOnChar '-' pre.data with
    | [nCommits, _lastCommit] =>
      match parseCount nCommits with
      | none => .error (.malformedCount pre)
      | some n =>
        let s := mk_prerelease_str (if isDirty then n + 1 else n) mode
        if prereleaseNewOk s.data then .ok s else .error (.invalidPrerelease s)
    | _ => .error .wrongTagFormat

/-! ### Working-tree status (`is_repo_dirty`) -/

/-- A single `git2::Status` flag as it reaches the `match` in
`is_repo_dirty`. -/
inductive GitStatus
  | current
  | indexNew
  | indexModified
  | indexDeleted
  | indexRenamed
  | indexTypechange
  | wtNew
  | wtModified
  | wtDeleted
  | wtTypechange
  | wtRenamed
  | ignored
  | conflicted
deriving DecidableEq, Repr

/-- One entry of the repository's status enumeration; the path is
optional because non-UTF8 paths surface as `None`. -/
structure StatusEntry where
  path : Option String
  status : GitStatus
deriving DecidableEq, Repr

/-- Whether one status entry triggers the early `return true` of
`is_repo_dirty`: it must pass the optional extension filter (a raw
`ends_with` on the path; a missing path is skipped when a filter is
given) and its status must be neither `IGNORED` nor `WT_NEW`. -/
def entryMakesDirty (filetype : Option String) (e : StatusEntry) : Bool :=
  (match filetype with
    | none => true
    | some ext =>
      match e.path with
      | some s => ext.data.isSuffixOf s.data
      | none => false) &&
  !(e.status = .ignored || e.status = .wtNew)

/-- `is_repo_dirty` from `main.rs`, over the status enumeration the
repository query returns. -/
def is_repo_dirty (entries : List StatusEntry) (filetype : Option String) : Bool :=
  entries.any (entryMakesDirty filetype)

/-! ### Repository state and the two orchestrators -/

/-- The values that the program's read-only VCS queries return, plus the
one piece of mutable state (the working-tree manifest).  `tagDescribe4`
and `tagDescribe0` are the strings produced by the describe query with
abbreviation sizes 4 and 0; `diffResult` is the outcome of
`check_rs_files_changed(latest_tag, HEAD)` (an external tree diff);
`headRef` is the full HEAD commit id. -/
structure RepoState where
  indexManifest : String
  headManifest : String
  workdirManifest : String
  statuses : List StatusEntry
  tagDescribe4 : String
  tagDescribe0 : String
  diffResult : Except String Bool
  headRef : String

/-- `unwrap_or(true)` applied to the diff query's outcome: a diff failure
is treated as "relevant files changed". -/
def relevantChanged (r : Except String Bool) : Bool :=
  match r with
  | .ok b => b
  | .error _ => true

/-- Outcome of the pure version derivation. -/
inductive Decision
  | upToDate
  | needsBump (v : Version)
  | failed (e : BumpError)
deriving DecidableEq, Repr

/-- The VersionDeriver core of `run_sem_ver_repo`: short-circuit when the
tree is clean and nothing relevant changed; otherwise build the candidate
(major/minor copied, patch + 1, dev pre-release, empty build metadata)
and require a bump exactly when the declared version is strictly below
the candidate. -/
def derive (latestTag declared : Version) (isDirty relevantCh : Bool)
    (mode : VersioningKind) : Decision :=
  if !isDirty && !relevantCh then .upToDate
  else
    match make_dev_prerelease latestTag.pre mode isDirty with
    | .error e => .failed e
    | .ok pre =>
      if Version.blt declared ⟨latestTag.major, latestTag.minor, latestTag.patch + 1, pre, ""⟩
      then .needsBump ⟨latestTag.major, latestTag.minor, latestTag.patch + 1, pre, ""⟩
      else .upToDate

/-- Build the internal mode from the CLI argument, as `run_sem_ver_repo`
does (`head_ref[0..5]`; the slice is modeled by `take 5`, the source
aborts when HEAD's id is shorter, which cannot happen for a full id). -/
def mkVersioningKind (arg : VersioningKindArg) (headShort : String) : VersioningKind :=
  match arg with
  | .pep440 => .pep440
  | .semver => .semver
  | .semverCommit => .semverCommit headShort

/-- `run_sem_ver_repo` from `main.rs`.  Returns the CLI outcome together
with the working-tree manifest after the call (the only state the
function can mutate).  The parse of the abbreviated describe string, the
index manifest and the plain describe string each propagate failure; the
tree-diff failure is absorbed by `relevantChanged`. -/
def run_sem_ver_repo (s : RepoState) (dryRun : Bool) (modeArg : VersioningKindArg)
    (filetype : Option String) : Except BumpError Unit × String :=
  match get_latest_tag s.tagDescribe4 with
  | .error e => (.error (.other e), s.workdirManifest)
  | .ok semVer =>
    match get_cargo_version s.indexManifest with
    | .error e => (.error (.other e), s.workdirManifest)
    | .ok cargoVer =>
      let isDirty := is_repo_dirty s.statuses filetype
      match get_latest_tag s.tagDescribe0 with
      | .error e => (.error (.other e), s.workdirManifest)
      | .ok _latestTag =>
        let changed := relevantChanged s.diffResult
        let mode := mkVersioningKind modeArg (String.mk (s.headRef.data.take 5))
        match derive semVer cargoVer isDirty changed mode with
        | .upToDate => (.ok (), s.workdirManifest)
        | .failed e => (.error e, s.workdirManifest)
        | .needsBump newVersion =>
          if dryRun then (.error (.outdated cargoVer newVersion), s.workdirManifest)
          else (.error (.outdated cargoVer newVersion),
                replace_version s.workdirManifest (renderVersion newVersion))

/-- `main`'s exit-code mapping: success is 0, any error is 1. -/
def exit_code (r : Except BumpError Unit) : Nat :=
  match r with
  | .ok _ => 0
  | .error _ => 1

/-- The repository state after one bump invocation: only the working-tree
manifest may have changed (the index, HEAD and tags are untouched). -/
def after_bump (s : RepoState) (dryRun : Bool) (modeArg : VersioningKindArg)
    (filetype : Option String) : RepoState :=
  { s with workdirManifest := (run_sem_ver_repo s dryRun modeArg filetype).2 }

/-- The final comparison of `run_check_tags_repo`: a release-shaped
declared version (empty pre-release) strictly above the latest tag is an
untagged release. -/
def check_tags_core (cargoVersion semVer : Version) : Except String Unit :=
  if cargoVersion.pre = "" && Version.blt semVer cargoVersion then
    .error "Please tag the release commit before adding new changes."
  else .ok ()

/-- `run_check_tags_repo` from `main.rs`: succeed at once on a clean
tree, else parse the manifest committed at HEAD and the latest tag and
run the core comparison. -/
def run_check_tags_repo (s : RepoState) : Except String Unit :=
  if !is_repo_dirty s.statuses none then .ok ()
  else
    match parse_cargo_version s.headManifest with
    | .error e => .error e
    | .ok cargoVersion =>
      match get_latest_tag s.tagDescribe0 with
      | .error e => .error e
      | .ok semVer => check_tags_core cargoVersion semVer

/-- The TagConsistencyChecker contract function of the specification,
assembled from the source's pieces: the dirty short-circuit around the
core comparison. -/
def checkTags (declared latestTag : Version) (isDirty : Bool) : Except String Unit :=
  if !isDirty then .ok () else check_tags_core declared latestTag

/-- Modelled from the spec: a path "is of extension `ext`" when it has at
least one dot and the segment after the last dot equals `ext`.  Used only
to state what the specification's extension scoping would require; the
source's filter is `ends_with`, compared against this in C7. -/
def specFileExtensionMatches (p : String) (ext : String) : Bool :=
  match splitOnChar '.' p.data with
  | _ :: _ :: _ => (splitOnChar '.' p.data).getLastD [] == ext.data
  | _ => false

/-! ### Helper lemmas: splitting -/

theorem splitOnChar_ne_nil (sep : Char) (cs : List Char) : splitOnChar sep cs ≠ [] := by
  induction cs with
  | nil => simp [splitOnChar]
  | cons c t ih =>
    simp only [splitOnChar]
    cases h : splitOnChar sep t with
    | nil => simp
    | cons p ps =>
      by_cases hc : c = sep
      · simp [hc]
      · simp [hc]

theorem splitOnChar_no_sep (sep : Char) (cs : List Char) (h : ∀ c ∈ cs, c ≠ sep) :
    splitOnChar sep cs = [cs] := by
  induction cs with
  | nil => rfl
  | cons c t ih =>
    have ht : splitOnChar sep t = [t] := ih (fun c hc => h c (by simp [hc]))
    simp only [splitOnChar, ht]
    rw [if_neg (h c (by simp))]

theorem splitOnChar_append_cons (sep : Char) (xs ys : List Char) (h : ∀ c ∈ xs, c ≠ sep) :
    splitOnChar sep (xs ++ sep :: ys) = xs :: splitOnChar sep ys := by
  induction xs with
  | nil =>
    simp only [List.nil_append, splitOnChar]
    cases hy : splitOnChar sep ys with
    | nil => exact absurd hy (splitOnChar_ne_nil sep ys)
    | cons p ps => simp
  | cons x xs ih =>
    have hx : x ≠ sep := h x (by simp)
    have ht := ih (fun c hc => h c (by simp [hc]))
    simp only [List.cons_append, splitOnChar, List.append_eq, ht]
    rw [if_neg hx]

/-! ### Helper lemmas: the ordering is reflexively `eq` -/

theorem compare_nat_self (n : Nat) : compare n n = Ordering.eq :=
  Nat.compare_eq_eq.2 rfl

theorem cmpChars_self (cs : List Char) : cmpChars cs cs = .eq := by
  induction cs with
  | nil => rfl
  | cons c t ih => simp [cmpChars, compare_nat_self, Ordering.then, ih]

theorem cmpIdentPre_self (x : List Char) : cmpIdentPre x x = .eq := by
  unfold cmpIdentPre
  cases h : x.all isDigitChar <;>
    simp [compare_nat_self, cmpChars_self, Ordering.then]

theorem cmpIdentListPre_self (l : List (List Char)) : cmpIdentListPre l l = .eq := by
  induction l with
  | nil => rfl
  | cons x xs ih => simp [cmpIdentListPre, cmpIdentPre_self, Ordering.then, ih]

theorem cmpPre_self (s : String) : cmpPre s s = .eq := by
  unfold cmpPre
  by_cases h : s = "" <;> simp [h, cmpIdentListPre_self]

theorem cmpIdentBuild_self (x : List Char) : cmpIdentBuild x x = .eq := by
  unfold cmpIdentBuild
  cases h : x.all isDigitChar <;>
    simp [compare_nat_self, cmpChars_self, Ordering.then]

theorem cmpIdentListBuild_self (l : List (List Char)) : cmpIdentListBuild l l = .eq := by
  induction l with
  | nil => rfl
  | cons x xs ih => simp [cmpIdentListBuild, cmpIdentBuild_self, Ordering.then, ih]

theorem cmpBuild_self (s : String) : cmpBuild s s = .eq := by
  simp [cmpBuild, cmpIdentListBuild_self]

theorem version_cmp_self (v : Version) : Version.cmp v v = .eq := by
  simp [Version.cmp, compare_nat_self, cmpPre_self, cmpBuild_self, Ordering.then]

theorem version_blt_self (v : Version) : Version.blt v v = false := by
  simp [Version.blt, version_cmp_self]

/-! ### Helper lemmas: decimal rendering produces a valid identifier -/

theorem digitChar_isDigit (k : Nat) : isDigitChar (digitChar k) = true := by
  unfold digitChar
  split_ifs <;> decide

theorem digitChar_ne_zero {k : Nat} (h1 : 1 ≤ k) (h2 : k ≤ 9) : digitChar k ≠ '0' := by
  unfold digitChar
  split_ifs <;> first | omega | decide

theorem natDigitsAux_spec (fuel : Nat) : ∀ n acc, n < fuel →
    ∃ ds, natDigitsAux fuel n acc = ds ++ acc ∧ ds ≠ [] ∧ ds.all isDigitChar = true ∧
      (n = 0 ∨ ds.head? ≠ some '0') ∧ (n < 10 → ds.length = 1) := by
  induction fuel with
  | zero => intro n acc h; omega
  | succ fuel ih =>
    intro n acc h
    by_cases h10 : n < 10
    · refine ⟨[digitChar (n % 10)], ?_, by simp, by simp [digitChar_isDigit], ?_, fun _ => rfl⟩
      · simp only [natDigitsAux]
        rw [if_pos h10]
        rfl
      · by_cases h0 : n = 0
        · exact Or.inl h0
        · refine Or.inr ?_
          have hmod : n % 10 = n := Nat.mod_eq_of_lt h10
          rw [hmod]
          simp only [List.head?]
          intro hcontra
          exact digitChar_ne_zero (by omega) (by omega) (Option.some.inj hcontra)
    · have hpos : 0 < n := by omega
      have hdivlt : n / 10 < n := Nat.div_lt_self hpos (by omega)
      obtain ⟨ds, heq, hne, hall, hhead, _⟩ :=
        ih (n / 10) (digitChar (n % 10) :: acc) (by omega)
      refine ⟨ds ++ [digitChar (n % 10)], ?_, by simp, ?_, ?_, fun hc => absurd hc h10⟩
      · simp only [natDigitsAux]
        rw [if_neg h10, heq, List.append_assoc]
        rfl
      · simp [List.all_append, hall, digitChar_isDigit]
      · refine Or.inr ?_
        have hd0 : n / 10 ≠ 0 := by
          have h1 : 1 ≤ n / 10 := (Nat.one_le_div_iff (by omega)).2 (by omega)
          omega
        rcases hhead with hl | hr
        · exact absurd hl hd0
        · cases ds with
          | nil => exact absurd rfl hne
          | cons d t =>
            simpa using hr

theorem natDigits_spec (n : Nat) :
    natDigits n ≠ [] ∧ (natDigits n).all isDigitChar = true ∧
      (n = 0 ∨ (natDigits n).head? ≠ some '0') := by
  obtain ⟨ds, heq, hne, hall, hhead, _⟩ := natDigitsAux_spec (n + 1) n [] (by omega)
  rw [natDigits, heq, List.append_nil]
  exact ⟨hne, hall, hhead⟩

theorem isDigitChar_isIdentChar {c : Char} (h : isDigitChar c = true) : isIdentChar c = true := by
  simp [isIdentChar, isAlphaNumChar, h]

theorem isAlphaNumChar_isIdentChar {c : Char} (h : isAlphaNumChar c = true) :
    isIdentChar c = true := by
  simp [isIdentChar, h]

theorem isDigitChar_ne_dot {c : Char} (h : isDigitChar c = true) : c ≠ '.' := by
  intro hc
  subst hc
  exact absurd h (by decide)

theorem isAlphaNumChar_ne_dot {c : Char} (h : isAlphaNumChar c = true) : c ≠ '.' := by
  intro hc
  subst hc
  exact absurd h (by decide)

theorem natDigits_validPreIdent (n : Nat) : validPreIdent (natDigits n) = true := by
  obtain ⟨hne, hall, hhead⟩ := natDigits_spec n
  rcases hhead with h0 | hh
  · subst h0
    decide
  · have h1 : (natDigits n).isEmpty = false := by
      cases h : natDigits n with
      | nil => exact absurd h hne
      | cons c t => rfl
    have h2 : (natDigits n).all isIdentChar = true := by
      rw [List.all_eq_true] at hall ⊢
      exact fun c hc => isDigitChar_isIdentChar (hall c hc)
    have h3 : ((natDigits n).head? == some '0') = false := by
      rw [beq_eq_false_iff_ne]
      exact hh
    simp [validPreIdent, h1, h2, h3]

/-! ### Helper lemmas: the built dev label always passes `Prerelease::new` -/

/-- The commit suffix embedded by the `--mode semver-commit` labeling is a
well-formed identifier tail when it is ASCII alphanumeric — which the
abbreviated HEAD commit id (hexadecimal) always is. -/
def modeBaseOk : VersioningKind → Bool
  | .pep440 => true
  | .semver => true
  | .semverCommit b => b.data.all isAlphaNumChar

theorem dev_digits_validPreIdent (n : Nat) :
    validPreIdent ('d' :: 'e' :: 'v' :: natDigits n) = true := by
  obtain ⟨_, hall, _⟩ := natDigits_spec n
  have h2 : ('d' :: 'e' :: 'v' :: natDigits n).all isIdentChar = true := by
    rw [List.all_eq_true]
    intro c hc
    simp only [List.mem_cons] at hc
    rcases hc with h | h | h | h
    · subst h; decide
    · subst h; decide
    · subst h; decide
    · exact isDigitChar_isIdentChar ((List.all_eq_true.1 hall) c h)
  have h3 : ('d' :: 'e' :: 'v' :: natDigits n).all isDigitChar = false := by
    simp [List.all_cons]
    intro hc
    exact absurd hc (by decide)
  simp [validPreIdent, h2, h3]

theorem natDigits_ne_dot (n : Nat) : ∀ c ∈ natDigits n, c ≠ '.' := by
  obtain ⟨_, hall, _⟩ := natDigits_spec n
  intro c hc
  exact isDigitChar_ne_dot ((List.all_eq_true.1 hall) c hc)

theorem gIdent_validPreIdent (b : String) (hb : b.data.all isAlphaNumChar = true) :
    validPreIdent ('g' :: b.data) = true := by
  have h2 : ('g' :: b.data).all isIdentChar = true := by
    rw [List.all_eq_true]
    intro c hc
    simp only [List.mem_cons] at hc
    rcases hc with h | h
    · subst h; decide
    · exact isAlphaNumChar_isIdentChar ((List.all_eq_true.1 hb) c h)
  have h3 : ('g' :: b.data).all isDigitChar = false := by
    simp [List.all_cons]
    intro hc
    exact absurd hc (by decide)
  simp [validPreIdent, h2, h3]

theorem data_mk (l : List Char) : (String.mk l).data = l := rfl

theorem mk_prerelease_valid (n : Nat) (mode : VersioningKind) (hm : modeBaseOk mode = true) :
    prereleaseNewOk (mk_prerelease_str n mode).data = true := by
  cases mode with
  | pep440 =>
    have hdata : (mk_prerelease_str n .pep440).data = 'd' :: 'e' :: 'v' :: natDigits n := by
      show ("dev" ++ natRepr n).data = _
      rw [String.data_append, natRepr, data_mk]
      rfl
    rw [hdata]
    have hsplit : splitOnChar '.' ('d' :: 'e' :: 'v' :: natDigits n)
        = [('d' :: 'e' :: 'v' :: natDigits n)] := by
      apply splitOnChar_no_sep
      intro c hc
      simp only [List.mem_cons] at hc
      rcases hc with h | h | h | h
      · subst h; decide
      · subst h; decide
      · subst h; decide
      · exact natDigits_ne_dot n c h
    simp [prereleaseNewOk, validPrerelease, hsplit, dev_digits_validPreIdent]
  | semver =>
    have hdata : (mk_prerelease_str n .semver).data
        = 'd' :: 'e' :: 'v' :: '.' :: natDigits n := by
      show ("dev." ++ natRepr n).data = _
      rw [String.data_append, natRepr, data_mk]
      rfl
    rw [hdata]
    have hsplit : splitOnChar '.' ('d' :: 'e' :: 'v' :: '.' :: natDigits n)
        = ['d', 'e', 'v'] :: splitOnChar '.' (natDigits n) := by
      apply splitOnChar_append_cons '.' ['d', 'e', 'v'] (natDigits n)
      intro c hc
      fin_cases hc <;> decide
    have hdig : splitOnChar '.' (natDigits n) = [natDigits n] :=
      splitOnChar_no_sep _ _ (natDigits_ne_dot n)
    simp [prereleaseNewOk, validPrerelease, hsplit, hdig, natDigits_validPreIdent,
      (by decide : validPreIdent ['d', 'e', 'v'] = true)]
  | semverCommit b =>
    have hb : b.data.all isAlphaNumChar = true := hm
    have hdata : (mk_prerelease_str n (.semverCommit b)).data
        = 'd' :: 'e' :: 'v' :: '.' :: (natDigits n ++ '.' :: ('g' :: b.data)) := by
      show ("dev." ++ natRepr n ++ ".g" ++ b).data = _
      rw [String.data_append, String.data_append, String.data_append, natRepr, data_mk]
      have hdev : "dev.".data = ['d', 'e', 'v', '.'] := rfl
      have hg : ".g".data = ['.', 'g'] := rfl
      rw [hdev, hg]
      simp [List.append_assoc]
    rw [hdata]
    have hsplit1 : splitOnChar '.'
          ('d' :: 'e' :: 'v' :: '.' :: (natDigits n ++ '.' :: ('g' :: b.data)))
        = ['d', 'e', 'v'] :: splitOnChar '.' (natDigits n ++ '.' :: ('g' :: b.data)) := by
      apply splitOnChar_append_cons '.' ['d', 'e', 'v'] (natDigits n ++ '.' :: ('g' :: b.data))
      intro c hc
      fin_cases hc <;> decide
    have hsplit2 : splitOnChar '.' (natDigits n ++ '.' :: ('g' :: b.data))
        = natDigits n :: splitOnChar '.' ('g' :: b.data) :=
      splitOnChar_append_cons _ _ _ (natDigits_ne_dot n)
    have hsplit3 : splitOnChar '.' ('g' :: b.data) = [('g' :: b.data)] := by
      apply splitOnChar_no_sep
      intro c hc
      simp only [List.mem_cons] at hc
      rcases hc with h | h
      · subst h; decide
      · exact isAlphaNumChar_ne_dot ((List.all_eq_true.1 hb) c h)
    simp [prereleaseNewOk, validPrerelease, hsplit1, hsplit2, hsplit3,
      natDigits_validPreIdent, gIdent_validPreIdent b hb,
      (by decide : validPreIdent ['d', 'e', 'v'] = true)]

/-! ### Helper lemmas: counting -/

theorem stripPlus_of_ne {c : Char} (t : List Char) (h : c ≠ '+') :
    stripPlus (c :: t) = c :: t := by
  unfold stripPlus
  split
  · rename_i heq
    rw [List.cons.injEq] at heq
    exact absurd heq.1 h
  · rfl

theorem parseCount_digits {cnt : List Char} (h1 : cnt ≠ []) (h2 : cnt.all isDigitChar = true)
    (h3 : digitsToNat cnt ≤ 2147483647) : parseCount cnt = some (digitsToNat cnt) := by
  cases cnt with
  | nil => exact absurd rfl h1
  | cons c t =>
    have hc : isDigitChar c = true := List.all_eq_true.1 h2 c (by simp)
    have hcp : c ≠ '+' := by
      intro hcc
      subst hcc
      exact absurd hc (by decide)
    have hstrip := stripPlus_of_ne t hcp
    simp [parseCount, hstrip, h2, h3]

/-! ### Concrete fixture -/

/-- A concrete repository fixture: tag `0.1.0` exactly at HEAD, declared
version `0.1.0` in the index, HEAD and working-tree manifests, one
modified tracked `.rs` file, and a tree diff reporting no change. -/
def repoS0 : RepoState where
  indexManifest := "version = \"0.1.0\""
  headManifest := "version = \"0.1.0\""
  workdirManifest := "version = \"0.1.0\""
  statuses := [{ path := some "f0.rs", status := .wtModified }]
  tagDescribe4 := "0.1.0"
  tagDescribe0 := "0.1.0"
  diffResult := .ok false
  headRef := "0123456789abcdef0123456789abcdef01234567"

/-! ### Claim theorems -/

/-- C1: the VersionDeriver contract.  When neither the dirty flag nor the
relevant-change flag holds, the derivation is `UpToDate` (and, third
conjunct, the orchestrator leaves the manifest file untouched).
Otherwise, whenever the dev pre-release label renders successfully, the
candidate copies major/minor from the latest tag, bumps the patch by one,
carries the rendered label and empty build metadata, and the outcome is
`NeedsBump(candidate)` exactly when the declared version is strictly
below the candidate, `UpToDate` otherwise (equality counts as
up-to-date). -/
theorem derive_contract (latestTag declared : Version) (isDirty relevantCh : Bool)
    (mode : VersioningKind) :
    (isDirty = false → relevantCh = false →
      derive latestTag declared isDirty relevantCh mode = .upToDate) ∧
    (∀ pre, make_dev_prerelease latestTag.pre mode isDirty = .ok pre →
      (isDirty = true ∨ relevantCh = true) →
      derive latestTag declared isDirty relevantCh mode =
        (if Version.blt declared ⟨latestTag.major, latestTag.minor, latestTag.patch + 1, pre, ""⟩
         then .needsBump ⟨latestTag.major, latestTag.minor, latestTag.patch + 1, pre, ""⟩
         else .upToDate)) ∧
    (∀ (s : RepoState) (dryRun : Bool) (modeArg : VersioningKindArg) (filetype : Option String),
      is_repo_dirty s.statuses filetype = false → relevantChanged s.diffResult = false →
      (run_sem_ver_repo s dryRun modeArg filetype).2 = s.workdirManifest) := by
  refine ⟨?_, ?_, ?_⟩
  · intro h1 h2
    simp [derive, h1, h2]
  · intro pre hpre hd
    have hcond : (!isDirty && !relevantCh) = false := by
      rcases hd with h | h <;> simp [h]
    simp only [derive, hcond, Bool.false_eq_true, if_false, hpre]
  · intro s dryRun modeArg filetype h1 h2
    cases hq4 : get_latest_tag s.tagDescribe4 with
    | error e => simp [run_sem_ver_repo, hq4]
    | ok semVer =>
      cases hqc : get_cargo_version s.indexManifest with
      | error e => simp [run_sem_ver_repo, hq4, hqc]
      | ok cargoVer =>
        cases hq0 : get_latest_tag s.tagDescribe0 with
        | error e => simp [run_sem_ver_repo, hq4, hqc, hq0]
        | ok tv =>
          have hder : derive semVer cargoVer (is_repo_dirty s.statuses filetype)
              (relevantChanged s.diffResult)
              (mkVersioningKind modeArg (String.mk (s.headRef.data.take 5))) = .upToDate := by
            rw [h1, h2]
            simp [derive]
          simp [run_sem_ver_repo, hq4, hqc, hq0, hder]

/-- Witness for C1: a clean unchanged repository derives `UpToDate`
regardless of a stale manifest, and a dirty repository at tag distance 3
derives the bump `0.1.1-dev.4`. -/
theorem derive_contract_witness :
    derive ⟨0, 1, 0, "", ""⟩ ⟨9, 9, 9, "", ""⟩ false false .pep440 = .upToDate ∧
    derive ⟨0, 1, 0, "3-g1a2b", ""⟩ ⟨0, 1, 0, "", ""⟩ true true .semver
      = .needsBump ⟨0, 1, 1, "dev.4", ""⟩ := by
  constructor
  · exact (derive_contract ⟨0, 1, 0, "", ""⟩ ⟨9, 9, 9, "", ""⟩ false false .pep440).1 rfl rfl
  · have h := (derive_contract ⟨0, 1, 0, "3-g1a2b", ""⟩ ⟨0, 1, 0, "", ""⟩ true true .semver).2.1
      "dev.4" rfl (Or.inl rfl)
    rw [h]
    rfl

/-- C2 counterexample: the claim states that every two-component
pre-release whose count is numeric renders successfully, but the source
parses the count with `str::parse::<i32>`, so the numeric count
2147483648 (one past `i32::MAX`) fails with the malformed-pre-release
error even though it is numeric and the shape is exactly two
hyphen-separated parts. -/
theorem make_dev_prerelease_numeric_overflow_cx :
    "2147483648".data.all isDigitChar = true ∧
    splitOnChar '-' "2147483648-g1a2b".data = ["2147483648".data, "g1a2b".data] ∧
    make_dev_prerelease "2147483648-g1a2b" .semver true
      = .error (.malformedCount "2147483648-g1a2b") := by
  refine ⟨by decide, by decide, by rfl⟩

/-- C2 (amended): for an alphanumeric commit id, an empty tag
pre-release renders the first dev iteration (count 1) regardless of the
dirty flag; a two-component `<count>-<suffix>` pre-release whose count is
numeric and fits a 32-bit signed integer renders count + 1 when dirty and
count unchanged otherwise, in the mode's grammar; a two-component shape
whose count does not parse as an i32 fails with the malformed-count
error; and any shape that is not exactly two hyphen-separated parts fails
with the wrong-tag-format error. -/
theorem make_dev_prerelease_contract (pre : String) (mode : VersioningKind) (isDirty : Bool)
    (hmode : modeBaseOk mode = true) :
    (pre = "" → make_dev_prerelease pre mode isDirty = .ok (mk_prerelease_str 1 mode)) ∧
    (∀ cnt sfx, splitOnChar '-' pre.data = [cnt, sfx] → cnt ≠ [] →
      cnt.all isDigitChar = true → digitsToNat cnt ≤ 2147483647 →
      make_dev_prerelease pre mode isDirty
        = .ok (mk_prerelease_str (digitsToNat cnt + (if isDirty then 1 else 0)) mode)) ∧
    (pre ≠ "" → ∀ cnt sfx, splitOnChar '-' pre.data = [cnt, sfx] → parseCount cnt = none →
      make_dev_prerelease pre mode isDirty = .error (.malformedCount pre)) ∧
    (pre ≠ "" → (∀ cnt sfx, splitOnChar '-' pre.data ≠ [cnt, sfx]) →
      make_dev_prerelease pre mode isDirty = .error .wrongTagFormat) := by
  refine ⟨?_, ?_, ?_, ?_⟩
  · intro h
    subst h
    simp [make_dev_prerelease, mk_prerelease_valid 1 mode hmode]
  · intro cnt sfx hsp hne hdig hle
    have hpre : pre ≠ "" := by
      intro h
      subst h
      simp [splitOnChar] at hsp
    have hpc := parseCount_digits hne hdig hle
    cases isDirty with
    | true =>
      simp [make_dev_prerelease, hpre, hsp, hpc,
        mk_prerelease_valid (digitsToNat cnt + 1) mode hmode]
    | false =>
      simp [make_dev_prerelease, hpre, hsp, hpc,
        mk_prerelease_valid (digitsToNat cnt) mode hmode]
  · intro hpre cnt sfx hsp hpc
    simp [make_dev_prerelease, hpre, hsp, hpc]
  · intro hpre hshape
    unfold make_dev_prerelease
    rw [if_neg hpre]
    cases hsp : splitOnChar '-' pre.data with
    | nil => rfl
    | cons a t =>
      cases t with
      | nil => rfl
      | cons b t2 =>
        cases t2 with
        | nil => exact absurd hsp (hshape a b)
        | cons c t3 => rfl

/-- Witness for C2: the four behaviours at concrete inputs — first dev
iteration, dirty increment over count 3, numeric-parse failure on an
alphabetic count, and shape failure on a three-part pre-release. -/
theorem make_dev_prerelease_contract_witness :
    make_dev_prerelease "" .semver true = .ok "dev.1" ∧
    make_dev_prerelease "3-g1a2b" .semver true = .ok "dev.4" ∧
    make_dev_prerelease "alpha-1" .semver true = .error (.malformedCount "alpha-1") ∧
    make_dev_prerelease "1-2-3" .semver true = .error .wrongTagFormat := by
  refine ⟨?_, ?_, ?_, ?_⟩
  · exact (make_dev_prerelease_contract "" .semver true rfl).1 rfl
  · exact (make_dev_prerelease_contract "3-g1a2b" .semver true rfl).2.1
      "3".data "g1a2b".data (by decide) (by decide) (by decide) (by decide)
  · exact (make_dev_prerelease_contract "alpha-1" .semver true rfl).2.2.1
      (by decide) "alpha".data "1".data (by decide) (by decide)
  · refine (make_dev_prerelease_contract "1-2-3" .semver true rfl).2.2.2 (by decide) ?_
    intro cnt sfx h
    rw [show splitOnChar '-' "1-2-3".data = [['1'], ['2'], ['3']] from rfl] at h
    simp at h

/-- C3: the TagConsistencyChecker contract.  A clean tree always passes;
a declared version with a non-empty pre-release always passes; and for a
dirty tree with a release-shaped declared version, the check fails with
the untagged-release message exactly when the latest tag is strictly
below the declared version.  The fourth conjunct ties the contract to
`run_check_tags_repo` itself. -/
theorem check_tags_contract (declared latestTag : Version) (isDirty : Bool) :
    (isDirty = false → checkTags declared latestTag isDirty = .ok ()) ∧
    (declared.pre ≠ "" → checkTags declared latestTag isDirty = .ok ()) ∧
    (isDirty = true → declared.pre = "" →
      (checkTags declared latestTag isDirty
          = .error "Please tag the release commit before adding new changes."
        ↔ Version.blt latestTag declared = true)) ∧
    (∀ (s : RepoState), is_repo_dirty s.statuses none = isDirty →
      parse_cargo_version s.headManifest = .ok declared →
      get_latest_tag s.tagDescribe0 = .ok latestTag →
      run_check_tags_repo s = checkTags declared latestTag isDirty) := by
  refine ⟨?_, ?_, ?_, ?_⟩
  · intro h
    simp [checkTags, h]
  · intro h
    cases isDirty with
    | false => simp [checkTags]
    | true => simp [checkTags, check_tags_core, h]
  · intro h1 h2
    subst h1
    simp only [checkTags, Bool.not_true, Bool.false_eq_true, if_false, check_tags_core, h2]
    cases hb : Version.blt latestTag declared <;> simp [hb]
  · intro s h1 h2 h3
    cases isDirty with
    | false =>
      simp [run_check_tags_repo, h1, checkTags]
    | true =>
      simp [run_check_tags_repo, h1, h2, h3, checkTags]

/-- Witness for C3: a clean tree passes, a dev-prerelease manifest
passes on a dirty tree, and for a dirty tree with release-shaped
declared version `1.2.3` above tag `0.1.0` the failure biconditional is
exercised. -/
theorem check_tags_contract_witness :
    checkTags ⟨1, 2, 3, "", ""⟩ ⟨0, 1, 0, "", ""⟩ false = .ok () ∧
    checkTags ⟨1, 2, 3, "dev.1", ""⟩ ⟨0, 1, 0, "", ""⟩ true = .ok () ∧
    (checkTags ⟨1, 2, 3, "", ""⟩ ⟨0, 1, 0, "", ""⟩ true
        = .error "Please tag the release commit before adding new changes."
      ↔ Version.blt ⟨0, 1, 0, "", ""⟩ ⟨1, 2, 3, "", ""⟩ = true) := by
  refine ⟨?_, ?_, ?_⟩
  · exact (check_tags_contract ⟨1, 2, 3, "", ""⟩ ⟨0, 1, 0, "", ""⟩ false).1 rfl
  · exact (check_tags_contract ⟨1, 2, 3, "dev.1", ""⟩ ⟨0, 1, 0, "", ""⟩ true).2.1 (by decide)
  · exact (check_tags_contract ⟨1, 2, 3, "", ""⟩ ⟨0, 1, 0, "", ""⟩ true).2.2.1 rfl rfl

/-- C4 counterexample: the claim (spec §8) states that for `a < b` the
check with `declared = a, latest_tag = b`, a dirty tree and `a` having an
empty pre-release fails with the untagged-release violation; on the code
it succeeds at `a = 1.0.0, b = 2.0.0` — the source fails only when the
latest tag is strictly BELOW the declared version, not above. -/
theorem check_tags_ordering_cx :
    Version.blt ⟨1, 0, 0, "", ""⟩ ⟨2, 0, 0, "", ""⟩ = true ∧
    (⟨1, 0, 0, "", ""⟩ : Version).pre = "" ∧
    checkTags ⟨1, 0, 0, "", ""⟩ ⟨2, 0, 0, "", ""⟩ true = .ok () :=
  ⟨rfl, rfl, rfl⟩

/-- C4 (amended): the ordering law with the roles as the code implements
them — for all versions `a < b` by semantic precedence, the check with
`declared = b, latest_tag = a`, a dirty tree and `b` carrying an empty
pre-release fails with the untagged-release violation; and whenever the
declared version is not strictly above the latest tag, the check
succeeds. -/
theorem check_tags_ordering_law (a b : Version) :
    (Version.blt a b = true → b.pre = "" →
      checkTags b a true = .error "Please tag the release commit before adding new changes.") ∧
    (Version.blt b a = false → checkTags a b true = .ok ()) := by
  constructor
  · intro h1 h2
    simp [checkTags, check_tags_core, h2, h1]
  · intro h
    simp [checkTags, check_tags_core, h]

/-- Witness for C4: at `a = 1.0.0 < b = 2.0.0`, declaring `2.0.0` over
tag `1.0.0` on a dirty tree fails, and declaring `1.0.0` under tag
`2.0.0` succeeds. -/
theorem check_tags_ordering_law_witness :
    checkTags ⟨2, 0, 0, "", ""⟩ ⟨1, 0, 0, "", ""⟩ true
      = .error "Please tag the release commit before adding new changes." ∧
    checkTags ⟨1, 0, 0, "", ""⟩ ⟨2, 0, 0, "", ""⟩ true = .ok () :=
  ⟨(check_tags_ordering_law ⟨1, 0, 0, "", ""⟩ ⟨2, 0, 0, "", ""⟩).1 rfl rfl,
   (check_tags_ordering_law ⟨1, 0, 0, "", ""⟩ ⟨2, 0, 0, "", ""⟩).2 rfl⟩

/-- C5: gate semantics of bump.  Given that the tag and manifest lookups
parse, whenever the derivation decides a bump is needed the outcome is
the non-zero `Outdated` error — with `--dry-run` the manifest is left
untouched, without it the candidate is written via `replace_version` and
the outcome is still non-zero; and the exit code is zero exactly when the
derivation decides `UpToDate`. -/
theorem bump_gate_semantics (s : RepoState) (dryRun : Bool) (modeArg : VersioningKindArg)
    (filetype : Option String) (semVer cargoVer tagV : Version)
    (h4 : get_latest_tag s.tagDescribe4 = .ok semVer)
    (hc : get_cargo_version s.indexManifest = .ok cargoVer)
    (h0 : get_latest_tag s.tagDescribe0 = .ok tagV) :
    (∀ cand,
      derive semVer cargoVer (is_repo_dirty s.statuses filetype) (relevantChanged s.diffResult)
          (mkVersioningKind modeArg (String.mk (s.headRef.data.take 5))) = .needsBump cand →
      exit_code (run_sem_ver_repo s dryRun modeArg filetype).1 = 1 ∧
      (run_sem_ver_repo s dryRun modeArg filetype).1 = .error (.outdated cargoVer cand) ∧
      (dryRun = true → (run_sem_ver_repo s dryRun modeArg filetype).2 = s.workdirManifest) ∧
      (dryRun = false → (run_sem_ver_repo s dryRun modeArg filetype).2
          = replace_version s.workdirManifest (renderVersion cand))) ∧
    (exit_code (run_sem_ver_repo s dryRun modeArg filetype).1 = 0 ↔
      derive semVer cargoVer (is_repo_dirty s.statuses filetype) (relevantChanged s.diffResult)
        (mkVersioningKind modeArg (String.mk (s.headRef.data.take 5))) = .upToDate) := by
  have hrun : run_sem_ver_repo s dryRun modeArg filetype =
      (match derive semVer cargoVer (is_repo_dirty s.statuses filetype)
          (relevantChanged s.diffResult)
          (mkVersioningKind modeArg (String.mk (s.headRef.data.take 5))) with
        | .upToDate => (.ok (), s.workdirManifest)
        | .failed e => (.error e, s.workdirManifest)
        | .needsBump nv =>
          if dryRun then (.error (.outdated cargoVer nv), s.workdirManifest)
          else (.error (.outdated cargoVer nv),
                replace_version s.workdirManifest (renderVersion nv))) := by
    simp only [run_sem_ver_repo, h4, hc, h0]
  constructor
  · intro cand hder
    rw [hrun, hder]
    cases dryRun with
    | true => simp [exit_code]
    | false => simp [exit_code]
  · rw [hrun]
    cases hd : derive semVer cargoVer (is_repo_dirty s.statuses filetype)
        (relevantChanged s.diffResult)
        (mkVersioningKind modeArg (String.mk (s.headRef.data.take 5))) with
    | upToDate => simp [exit_code]
    | needsBump nv => cases dryRun <;> simp [exit_code]
    | failed e => simp [exit_code]

/-- Witness for C5: on the concrete dirty fixture the bump exits 1 and
the working-tree manifest receives the rendered candidate. -/
theorem bump_gate_semantics_witness :
    exit_code (run_sem_ver_repo repoS0 false .semver (some "rs")).1 = 1 ∧
    (run_sem_ver_repo repoS0 false .semver (some "rs")).2
      = replace_version "version = \"0.1.0\"" (renderVersion ⟨0, 1, 1, "dev.1", ""⟩) := by
  have h := (bump_gate_semantics repoS0 false .semver (some "rs")
      ⟨0, 1, 0, "", ""⟩ ⟨0, 1, 0, "", ""⟩ ⟨0, 1, 0, "", ""⟩ rfl rfl rfl).1
      ⟨0, 1, 1, "dev.1", ""⟩ rfl
  exact ⟨h.1, h.2.2.2 rfl⟩

/-- C6: fail-open on diff failure.  A bump run in which the historical
tree diff failed (for any message, including a failure to resolve the
tag revision) behaves exactly like a run in which the diff succeeded and
reported that relevant files changed: the failure neither aborts the
check nor lets it skip the bump. -/
theorem diff_fail_open (s : RepoState) (msg : String) (dryRun : Bool)
    (modeArg : VersioningKindArg) (filetype : Option String) :
    run_sem_ver_repo { s with diffResult := .error msg } dryRun modeArg filetype
      = run_sem_ver_repo { s with diffResult := .ok true } dryRun modeArg filetype := rfl

/-- C7 counterexample: the claim states that with an extension filter
only files of that extension can make the tree dirty; but the source
filters with a raw `ends_with` on the path, so the tracked modified file
`colors` — which has no extension at all — passes the `rs` filter and
makes the tree dirty. -/
theorem is_repo_dirty_extension_cx :
    is_repo_dirty [{ path := some "colors", status := .wtModified }] (some "rs") = true ∧
    specFileExtensionMatches "colors" "rs" = false :=
  ⟨rfl, rfl⟩

/-- C7 (amended): the dirty flag is true only if some entry passing the
suffix filter has a status other than `IGNORED` and `WT_NEW`; entries
whose status is `IGNORED` or `WT_NEW` never make the tree dirty; and when
a filter is given, files whose path does not end with the extension
string (a raw suffix match, not a true extension match) never make the
tree dirty. -/
theorem is_repo_dirty_contract (entries : List StatusEntry) (filetype : Option String) :
    (is_repo_dirty entries filetype = true →
      ∃ e ∈ entries, e.status ≠ GitStatus.ignored ∧ e.status ≠ GitStatus.wtNew ∧
        (∀ ext, filetype = some ext →
          ∃ p, e.path = some p ∧ ext.data.isSuffixOf p.data = true)) ∧
    (entries.all (fun e => e.status == GitStatus.ignored || e.status == GitStatus.wtNew) = true →
      is_repo_dirty entries filetype = false) ∧
    (∀ ext, filetype = some ext →
      entries.all (fun e =>
        match e.path with
        | some p => !(ext.data.isSuffixOf p.data)
        | none => true) = true →
      is_repo_dirty entries filetype = false) := by
  refine ⟨?_, ?_, ?_⟩
  · intro h
    rw [is_repo_dirty, List.any_eq_true] at h
    obtain ⟨e, he, hd⟩ := h
    simp only [entryMakesDirty] at hd
    rw [Bool.and_eq_true] at hd
    obtain ⟨hf, hs⟩ := hd
    have hs1 : e.status ≠ GitStatus.ignored := by
      intro hcc
      simp [hcc] at hs
    have hs2 : e.status ≠ GitStatus.wtNew := by
      intro hcc
      simp [hcc] at hs
    refine ⟨e, he, hs1, hs2, ?_⟩
    intro ext hext
    subst hext
    cases hp : e.path with
    | none => rw [hp] at hf; simp at hf
    | some p => rw [hp] at hf; exact ⟨p, rfl, hf⟩
  · intro hall
    rw [is_repo_dirty, List.any_eq_false]
    intro e he
    have := List.all_eq_true.1 hall e he
    rw [Bool.or_eq_true, beq_iff_eq, beq_iff_eq] at this
    rcases this with h | h <;> simp [entryMakesDirty, h]
  · intro ext hft hall
    subst hft
    rw [is_repo_dirty, List.any_eq_false]
    intro e he
    have hfe := List.all_eq_true.1 hall e he
    simp only [entryMakesDirty]
    cases hp : e.path with
    | none => simp
    | some p =>
      rw [hp] at hfe
      simp only at hfe
      rw [Bool.not_eq_true'] at hfe
      simp [hfe]

/-- Witness for C7: a modified `.rs` file yields the promised dirty
witness; a list of only ignored and untracked-new entries is clean; and
a modified file outside the filter suffix is clean under the filter. -/
theorem is_repo_dirty_contract_witness :
    (∃ e ∈ [({ path := some "f0.rs", status := .wtModified } : StatusEntry)],
      e.status ≠ GitStatus.ignored ∧ e.status ≠ GitStatus.wtNew ∧
      (∀ ext, (some "rs" : Option String) = some ext →
        ∃ p, e.path = some p ∧ ext.data.isSuffixOf p.data = true)) ∧
    is_repo_dirty [{ path := some "x.rs", status := .ignored },
      { path := some "y.rs", status := .wtNew }] (some "rs") = false ∧
    is_repo_dirty [{ path := some "README.md", status := .wtModified }] (some "rs") = false := by
  refine ⟨?_, ?_, ?_⟩
  · exact (is_repo_dirty_contract
      [{ path := some "f0.rs", status := .wtModified }] (some "rs")).1 rfl
  · exact (is_repo_dirty_contract
      [{ path := some "x.rs", status := .ignored },
       { path := some "y.rs", status := .wtNew }] (some "rs")).2.1 (by decide)
  · exact (is_repo_dirty_contract
      [{ path := some "README.md", status := .wtModified }] (some "rs")).2.2 "rs" rfl (by decide)

/-- C8 counterexample: the claim states that a second derivation right
after a first bump wrote its candidate yields `UpToDate`; but the bump
reads the declared version from the index (stage 0) copy of the
manifest, while `replace_version` writes only the working-tree file, so
on the concrete fixture the first run writes `0.1.1-dev.1` into the
working tree and the second run — with no other repository change —
still compares the unchanged index version `0.1.0` and decides
`NeedsBump` (non-zero outcome) again instead of `UpToDate`. -/
theorem bump_not_idempotent_cx :
    (after_bump repoS0 false .semver (some "rs")).workdirManifest
        = "version = \"0.1.1-dev.1\"" ∧
    (run_sem_ver_repo (after_bump repoS0 false .semver (some "rs")) false .semver (some "rs")).1
        = .error (.outdated ⟨0, 1, 0, "", ""⟩ ⟨0, 1, 1, "dev.1", ""⟩) :=
  ⟨rfl, rfl⟩

/-- C8 (amended): once the version written by the first bump is also
staged, so that the declared version the second run reads equals the
first run's candidate, the second derivation with otherwise unchanged
inputs yields `UpToDate` (the recomputed candidate equals the declared
version and is not strictly greater). -/
theorem derive_idempotent_after_staging (latestTag declared : Version)
    (isDirty relevantCh : Bool) (mode : VersioningKind) (cand : Version)
    (h : derive latestTag declared isDirty relevantCh mode = .needsBump cand) :
    derive latestTag cand isDirty relevantCh mode = .upToDate := by
  unfold derive at h ⊢
  split at h
  · exact absurd h (by simp)
  · rename_i hcond
    rw [if_neg hcond]
    split at h
    · simp at h
    · split at h
      · injection h with hc
        subst hc
        simp [version_blt_self]
      · simp at h

/-- Witness for C8: the dirty derivation over tag `0.1.0` with declared
`0.1.0` yields candidate `0.1.1-dev.1`; re-deriving with that candidate
as the declared version yields `UpToDate`. -/
theorem derive_idempotent_after_staging_witness :
    derive ⟨0, 1, 0, "", ""⟩ ⟨0, 1, 1, "dev.1", ""⟩ true true .semver = .upToDate :=
  derive_idempotent_after_staging ⟨0, 1, 0, "", ""⟩ ⟨0, 1, 0, "", ""⟩ true true .semver
    ⟨0, 1, 1, "dev.1", ""⟩ rfl

/-- Key frame lemma for C9: the first-match replacement splits the line
list into an untouched prefix with no match, the first matching line
whose matched span is replaced, and an untouched suffix. -/
theorem replaceFirst_split (ver : List Char) :
    ∀ lines : List (List Char),
      lines.any (fun l => (versionLineMatchLen l).isSome) = true →
      ∃ pre l post n, lines = pre ++ l :: post ∧
        (∀ l2 ∈ pre, versionLineMatchLen l2 = none) ∧
        versionLineMatchLen l = some n ∧
        replaceFirstVersionLine ver lines = pre ++ replLine ver l n :: post := by
  intro lines
  induction lines with
  | nil => intro h; simp at h
  | cons l0 ls ih =>
    intro h
    cases hm : versionLineMatchLen l0 with
    | some n =>
      exact ⟨[], l0, ls, n, rfl, by simp, hm, by simp [replaceFirstVersionLine, hm]⟩
    | none =>
      have h' : ls.any (fun l => (versionLineMatchLen l).isSome) = true := by
        rw [List.any_cons, hm] at h
        simpa using h
      obtain ⟨pre, l, post, n, heq, hpre, hml, hrepl⟩ := ih h'
      refine ⟨l0 :: pre, l, post, n, by rw [heq]; rfl, ?_, hml, ?_⟩
      · intro l2 hl2
        rcases List.mem_cons.1 hl2 with h2 | h2
        · subst h2; exact hm
        · exact hpre l2 h2
      · simp [replaceFirstVersionLine, hm, hrepl]

/-- C9: manifest-write frame effect.  For every manifest text containing
at least one line matched by the version regex, `replace_version`
substitutes the matched span of the first such line only — the leading
lines (none of which match), the remainder of the matched line beyond
the greedy match, and every following line (including any later version
lines) are reassembled byte-for-byte unchanged. -/
theorem replace_version_frame (contents ver : String)
    (h : (splitOnChar '\n' contents.data).any
        (fun l => (versionLineMatchLen l).isSome) = true) :
    ∃ pre l post n,
      splitOnChar '\n' contents.data = pre ++ l :: post ∧
      (∀ l2 ∈ pre, versionLineMatchLen l2 = none) ∧
      versionLineMatchLen l = some n ∧
      replace_version contents ver
        = String.mk (List.intercalate ['\n'] (pre ++ replLine ver.data l n :: post)) := by
  obtain ⟨pre, l, post, n, heq, hpre, hml, hrepl⟩ :=
    replaceFirst_split ver.data (splitOnChar '\n' contents.data) h
  exact ⟨pre, l, post, n, heq, hpre, hml, by rw [replace_version, hrepl]⟩

/-- Witness for C9: a three-line manifest with a leading non-matching
line and a second version line; the replacement touches the first
version line only. -/
theorem replace_version_frame_witness :
    ((splitOnChar '\n' ("name = \"pkg\"\nversion = \"0.1.0\"\nversion = \"9.9.9\"").data).any
        (fun l => (versionLineMatchLen l).isSome) = true) ∧
    (∃ pre l post n,
      splitOnChar '\n' ("name = \"pkg\"\nversion = \"0.1.0\"\nversion = \"9.9.9\"").data
        = pre ++ l :: post ∧
      (∀ l2 ∈ pre, versionLineMatchLen l2 = none) ∧
      versionLineMatchLen l = some n ∧
      replace_version "name = \"pkg\"\nversion = \"0.1.0\"\nversion = \"9.9.9\"" "0.1.1-dev.1"
        = String.mk (List.intercalate ['\n'] (pre ++ replLine "0.1.1-dev.1".data l n :: post))) :=
  ⟨by decide, replace_version_frame "name = \"pkg\"\nversion = \"0.1.0\"\nversion = \"9.9.9\""
    "0.1.1-dev.1" (by decide)⟩

/-- C10: the bump orchestrator reads the declared version from the index
(stage 0) manifest, so its decision is unchanged under any change of the
working-tree manifest alone (first conjunct); check-tags reads the
manifest committed at HEAD, so its outcome is unchanged under any change
of the working-tree or index manifests (second conjunct); and every
candidate the deriver produces carries empty build metadata, whatever
build metadata the tag carried (third conjunct). -/
theorem bump_reads_index_check_reads_head (s : RepoState) (w1 w2 i1 i2 : String)
    (dryRun : Bool) (modeArg : VersioningKindArg) (filetype : Option String) :
    ((run_sem_ver_repo { s with workdirManifest := w1 } dryRun modeArg filetype).1
      = (run_sem_ver_repo { s with workdirManifest := w2 } dryRun modeArg filetype).1) ∧
    (run_check_tags_repo { s with workdirManifest := w1, indexManifest := i1 }
      = run_check_tags_repo { s with workdirManifest := w2, indexManifest := i2 }) ∧
    (∀ latestTag declared isDirty relevantCh mode cand,
      derive latestTag declared isDirty relevantCh mode = .needsBump cand →
      cand.build = "") := by
  refine ⟨?_, rfl, ?_⟩
  · cases hq4 : get_latest_tag s.tagDescribe4 with
    | error e => simp [run_sem_ver_repo, hq4]
    | ok semVer =>
      cases hqc : get_cargo_version s.indexManifest with
      | error e => simp [run_sem_ver_repo, hq4, hqc]
      | ok cargoVer =>
        cases hq0 : get_latest_tag s.tagDescribe0 with
        | error e => simp [run_sem_ver_repo, hq4, hqc, hq0]
        | ok tv =>
          cases hd : derive semVer cargoVer (is_repo_dirty s.statuses filetype)
              (relevantChanged s.diffResult)
              (mkVersioningKind modeArg (String.mk (s.headRef.data.take 5))) with
          | upToDate => simp [run_sem_ver_repo, hq4, hqc, hq0, hd]
          | failed e => simp [run_sem_ver_repo, hq4, hqc, hq0, hd]
          | needsBump nv => cases dryRun <;> simp [run_sem_ver_repo, hq4, hqc, hq0, hd]
  · intro latestTag declared isDirty relevantCh mode cand h
    unfold derive at h
    split at h
    · exact absurd h (by simp)
    · split at h
      · simp at h
      · split at h
        · injection h with hc
          rw [← hc]
        · simp at h

/-- Witness for C10: the deriver's candidate over a tag carrying build
metadata still has empty build metadata. -/
theorem bump_reads_index_witness :
    (⟨0, 1, 1, "dev.1", ""⟩ : Version).build = "" :=
  (bump_reads_index_check_reads_head repoS0 "" "" "" "" false .semver none).2.2
    ⟨0, 1, 0, "", "cafe1"⟩ ⟨0, 1, 0, "", ""⟩ true true .semver ⟨0, 1, 1, "dev.1", ""⟩ rfl

end CargoSemverHook
